import Mathlib

/-!
Formal model of the HistoryBlock extension core (src/options/options.js).

The `HistoryBlock` class keeps its state in `browser.storage.sync`, a
key-value record with the top-level fields `blacklist` (an array of
pattern strings), `listMode` (a string), and `matching` (a string read
only by the options page). A field may be absent, which JavaScript reads
as `undefined`; we model each field as an `Option`.

Methods of the class are `async` functions acting on that storage. We
embed each one as an explicit state-passing function on `Storage`.
JavaScript exceptions (a `TypeError` from reading a property of
`undefined`, a `SyntaxError` from `new RegExp` on an invalid pattern)
are modelled with `Except`. The host regular-expression engine
(`new RegExp(p)` followed by `.test(url)`, partial-match semantics) is
modelled as a parameter: a function from the pattern text to an optional
test predicate, `none` meaning the constructor throws.
-/

deriving instance DecidableEq for Except

/-- A JavaScript exception, as far as this code can raise one:
`typeError` for a property access on `undefined`, `regexError` for an
invalid pattern given to the `RegExp` constructor. -/
inductive JsError where
  | typeError
  | regexError
deriving DecidableEq, Repr

/-- The JavaScript value an `async` method resolves with. The methods
modelled here resolve with `undefined` (no `return` statement) or, in
principle, a boolean; the constructor set records which. -/
inductive JsValue where
  | undefined
  | boolean (b : Bool)
deriving DecidableEq, Repr

/-- The `browser.storage.sync` record: top-level fields `blacklist`,
`listMode` and `matching`, each possibly absent (`none` = the key is not
set, i.e. reads as `undefined`). `storage.sync.set` merges fields, which
the embedding renders as a structure update. -/
structure Storage where
  blacklist : Option (List String)
  listMode : Option String
  matching : Option String
deriving DecidableEq, Repr

/-- The host regex engine: `compile p` is `new RegExp(p)`, returning
`none` when the constructor throws (invalid pattern) and otherwise the
test predicate `re.test` (JavaScript partial-match semantics). -/
structure RegexEngine where
  compile : String → Option (String → Bool)

/-- JavaScript `String.prototype.split` with separator `","`, on
character lists: every comma starts a new group, and the empty string
yields one empty group. -/
def splitCommaChars : List Char → List (List Char)
  | [] => [[]]
  | c :: cs =>
    match splitCommaChars cs with
    | [] => if c = ',' then [[], []] else [[c]]
    | g :: gs => if c = ',' then [] :: g :: gs else (c :: g) :: gs

/-- JavaScript `list.split(',')`. -/
def splitComma (s : String) : List String :=
  (splitCommaChars s.data).map (fun cs => String.mk cs)

/-- Character-list version of JavaScript `String.prototype.trim`: drop
whitespace from both ends. -/
def trimChars (cs : List Char) : List Char :=
  ((cs.dropWhile Char.isWhitespace).reverse.dropWhile Char.isWhitespace).reverse

/-- JavaScript `hash.trim()`. -/
def jsTrim (s : String) : String := String.mk (trimChars s.data)

/-- Whether the first character list is an initial segment of the
second. -/
def leadsWith : List Char → List Char → Bool
  | [], _ => true
  | _ :: _, [] => false
  | p :: ps, c :: cs => p = c && leadsWith ps cs

/-- Whether `pat` occurs contiguously somewhere in the second list (the
empty `pat` occurs everywhere). -/
def occursIn (pat : List Char) : List Char → Bool
  | [] => leadsWith pat []
  | c :: cs => leadsWith pat (c :: cs) || occursIn pat cs

/-- The result of running one `async` method: the value or exception it
settles with, and the storage contents afterwards. -/
structure Outcome (α : Type) where
  result : Except JsError α
  store : Storage

/-- `HistoryBlock.getBlacklist`: reads storage; when `storage.blacklist`
is falsy (absent), writes `{blacklist: []}` and re-reads; returns the
blacklist array together with the storage afterwards. An existing empty
array is truthy in JavaScript, so it is returned as is. -/
def getBlacklist (s : Storage) : List String × Storage :=
  match s.blacklist with
  | some bl => (bl, s)
  | none => ([], { s with blacklist := some [] })

/-- One pattern's verdict during `onPageVisited`: `new RegExp(p)` then
`.test(url)`; `false` when the pattern does not compile (that situation
throws in the real loop, see `findMatch`; this total function names the
match outcome the theorems compare against). -/
def testPat (eng : RegexEngine) (url p : String) : Bool :=
  match eng.compile p with
  | some t => t url
  | none => false

/-- The pattern loop of `HistoryBlock.onPageVisited`: walk the blacklist
in order, construct each regex (an invalid pattern throws, aborting the
loop), and stop at the first match. -/
def findMatch (eng : RegexEngine) (url : String) : List String → Except JsError Bool
  | [] => .ok false
  | p :: ps =>
    match eng.compile p with
    | none => .error .regexError
    | some t => if t url then .ok true else findMatch eng url ps

/-- `HistoryBlock.onPageVisited`: fetches the blacklist (possibly lazily
initializing it), reads `storage.listMode`, runs the match loop, and
purges iff `(isBlacklist && found) || (!isBlacklist && !found)`. The
returned boolean is that purge decision (whether
`browser.history.deleteUrl` is invoked). -/
def onPageVisited (eng : RegexEngine) (s : Storage) (url : String) : Outcome Bool :=
  let (bl, s1) := getBlacklist s
  let isBlacklist : Bool := s1.listMode == some "blacklist"
  match findMatch eng url bl with
  | .error e => ⟨.error e, s1⟩
  | .ok found => ⟨.ok ((isBlacklist && found) || (!isBlacklist && !found)), s1⟩

/-- `HistoryBlock.block`: fetches the blacklist; when the argument is not
already present, pushes it (verbatim) and persists. The method body has
no `return`, so it resolves with `undefined`. -/
def block (s : Storage) (regex : String) : JsValue × Storage :=
  let (bl, s1) := getBlacklist s
  if bl.contains regex then (.undefined, s1)
  else (.undefined, { s1 with blacklist := some (bl ++ [regex]) })

/-- `HistoryBlock.unblock`: fetches the blacklist; when the argument is
present, removes `blacklist.splice(blacklist.indexOf(regex), 1)` — the
first occurrence — and persists. Resolves with `undefined`. -/
def unblock (s : Storage) (regex : String) : JsValue × Storage :=
  let (bl, s1) := getBlacklist s
  if bl.contains regex then
    (.undefined, { s1 with blacklist := some (bl.eraseIdx (bl.indexOf regex)) })
  else (.undefined, s1)

/-- `HistoryBlock.clearBlacklist`: removes the `blacklist` key from
storage, then calls `getBlacklist` to re-initialize it to `[]`. -/
def clearBlacklist (s : Storage) : Storage :=
  (getBlacklist { s with blacklist := none }).2

/-- `HistoryBlock.changeListMode`: when the argument is falsy
(`undefined`, modelled `none`, or the empty string), it re-reads the
stored `listMode` and writes that same value back, leaving the stored
value unchanged; otherwise it writes the argument as `listMode`,
whatever string it is — no validation happens in this method. -/
def changeListMode (s : Storage) (listMode : Option String) : Storage :=
  match listMode with
  | none => { s with listMode := s.listMode }
  | some v => if v = "" then { s with listMode := s.listMode } else { s with listMode := some v }

/-- The `hash` property of the `HistoryBlock` instance, as read by
`this.hash` in `importBlacklist`. No code in the class ever assigns it,
so the property access yields `undefined`: modelled as `none` (were it an
object, it would supply the `test` predicate the import loop calls). -/
def HistoryBlock.hash : Option (String → Bool) := none

/-- The token loop of `HistoryBlock.importBlacklist`: for each raw token,
trim it; when it is already in the accumulated blacklist, the `&&`
short-circuits and the token is skipped; otherwise `this.hash.test(hash)`
is evaluated — a `TypeError` when `this.hash` is `undefined` — and on a
`true` verdict the token is pushed. -/
def importTokens (hash : Option (String → Bool)) (bl : List String) :
    List String → Except JsError (List String)
  | [] => .ok bl
  | t :: ts =>
    let h := jsTrim t
    if bl.contains h then importTokens hash bl ts
    else
      match hash with
      | none => .error .typeError
      | some test => if test h then importTokens hash (bl ++ [h]) ts else importTokens hash bl ts

/-- `HistoryBlock.importBlacklist`: when the argument is truthy, split it
on commas, fetch the blacklist, run the token loop, and persist the
result; the persist is skipped when the loop throws. Resolves with
`undefined` (no `return` statement, so no count is returned). -/
def importBlacklist (s : Storage) (list : String) : Outcome JsValue :=
  if list = "" then ⟨.ok .undefined, s⟩
  else
    let blarr := splitComma list
    let (bl, s1) := getBlacklist s
    match importTokens HistoryBlock.hash bl blarr with
    | .error e => ⟨.error e, s1⟩
    | .ok bl2 => ⟨.ok .undefined, { s1 with blacklist := some bl2 }⟩

/-- The pattern sequence a storage snapshot holds (`[]` when the
`blacklist` key is absent). -/
def patternsOf (s : Storage) : List String := s.blacklist.getD []

/-- A small concrete regex engine used to instantiate the theorems: the
pattern `[` fails to compile (as in JavaScript, where `new RegExp` raises
a `SyntaxError` on it); any other pattern matches a url iff it occurs in
it as a literal substring (the empty pattern matches every url). -/
def jsLikeEngine : RegexEngine where
  compile p :=
    if p = "[" then none
    else some (fun url => occursIn p.data url.data)

/-! ### Helper lemmas -/

/-- `getBlacklist` returns the stored pattern sequence. -/
theorem getBlacklist_fst (s : Storage) : (getBlacklist s).1 = patternsOf s := by
  cases h : s.blacklist <;> simp [getBlacklist, patternsOf, h]

/-- When a blacklist is stored, `getBlacklist` touches nothing. -/
theorem getBlacklist_of_some (s : Storage) (l : List String) (h : s.blacklist = some l) :
    getBlacklist s = (l, s) := by
  simp [getBlacklist, h]

/-- After `getBlacklist`, the stored pattern sequence is the returned one. -/
theorem patternsOf_getBlacklist (s : Storage) :
    patternsOf (getBlacklist s).2 = (getBlacklist s).1 := by
  cases h : s.blacklist <;> simp [getBlacklist, patternsOf, h]

/-- When every pattern compiles, the match loop completes and reports
whether any pattern matches. -/
theorem findMatch_eq_any (eng : RegexEngine) (url : String) (l : List String)
    (h : ∀ p ∈ l, (eng.compile p).isSome) :
    findMatch eng url l = .ok (l.any (testPat eng url)) := by
  induction l with
  | nil => rfl
  | cons p ps ih =>
    have hp := h p (List.mem_cons_self p ps)
    have hps := ih (fun q hq => h q (List.mem_cons_of_mem p hq))
    rcases hcp : eng.compile p with _ | t
    · rw [hcp] at hp; simp at hp
    · have ht : testPat eng url p = t url := by simp [testPat, hcp]
      by_cases htu : t url = true
      · simp [findMatch, hcp, htu, ht]
      · simp only [Bool.not_eq_true] at htu
        simp [findMatch, hcp, htu, ht, hps]

/-- When the match loop reaches a pattern that does not compile (all the
patterns before it compile and fail to match), it throws. -/
theorem findMatch_reaches_invalid (eng : RegexEngine) (url : String)
    (l1 : List String) (p : String) (l2 : List String)
    (h1 : ∀ q ∈ l1, (eng.compile q).isSome ∧ testPat eng url q = false)
    (hp : eng.compile p = none) :
    findMatch eng url (l1 ++ p :: l2) = .error .regexError := by
  induction l1 with
  | nil => simp [findMatch, hp]
  | cons q l1' ih =>
    have hq := h1 q (List.mem_cons_self q l1')
    rcases hcq : eng.compile q with _ | t
    · rw [hcq] at hq; simp at hq
    · have ht : t url = false := by
        have := hq.2
        simpa [testPat, hcq] using this
      simpa [findMatch, hcq, ht] using ih (fun r hr => h1 r (List.mem_cons_of_mem q hr))

/-- With no `hash` object, the import loop either skips every token (all
already present) or throws; it never extends the list. -/
theorem importTokens_none_ok (bl : List String) (ts : List String) (bl2 : List String)
    (h : importTokens none bl ts = .ok bl2) : bl2 = bl := by
  induction ts with
  | nil => simpa [importTokens] using h.symm
  | cons t ts' ih =>
    by_cases hm : jsTrim t ∈ bl
    · exact ih (by simpa [importTokens, hm] using h)
    · simp [importTokens, hm] at h

/-- The import loop only pushes tokens not already present, so it
preserves the absence of duplicates, whatever the `hash` object is. -/
theorem importTokens_nodup (hash : Option (String → Bool)) (bl : List String)
    (ts : List String) (bl2 : List String)
    (hn : bl.Nodup) (h : importTokens hash bl ts = .ok bl2) : bl2.Nodup := by
  induction ts generalizing bl with
  | nil =>
    simp only [importTokens, Except.ok.injEq] at h
    exact h ▸ hn
  | cons t ts' ih =>
    by_cases hm : jsTrim t ∈ bl
    · exact ih bl hn (by simpa [importTokens, hm] using h)
    · rcases hash with _ | test
      · simp [importTokens, hm] at h
      · by_cases htest : test (jsTrim t) = true
        · have hn2 : (bl ++ [jsTrim t]).Nodup := by simp [List.nodup_append, hn, hm]
          exact ih (bl ++ [jsTrim t]) hn2 (by simpa [importTokens, hm, htest] using h)
        · simp only [Bool.not_eq_true] at htest
          exact ih bl hn (by simpa [importTokens, hm, htest] using h)

/-! ### Claim C1 -/

/-- Claim C1: the claim says `importBlacklist` splits on commas, trims,
appends each non-empty token not already present, persists once, and
returns the count added, so that on an empty store `"a,b,a, c"` yields
`[a, b, c]` and `3`. The code cannot do this: `this.hash` is never
assigned in the `HistoryBlock` class, so the guard
`this.hash.test(hash)` raises a `TypeError` on the first token that is
not already present. On the claim's own input with an empty store, the
call throws, nothing is appended, nothing is persisted, and no count is
returned. -/
theorem C1_import_throws :
    (importBlacklist ⟨some [], none, none⟩ "a,b,a, c").result = .error .typeError ∧
    (importBlacklist ⟨some [], none, none⟩ "a,b,a, c").store = ⟨some [], none, none⟩ :=
  ⟨by decide, by decide⟩

/-! ### Claim C2 -/

/-- Claim C2 counterexample: on a store with nothing persisted, the
first `getBlacklist` call does not persist `mode: blacklist` — the
`listMode` field stays absent, refuting the claim that the full value
`{patterns: [], mode: blacklist}` is persisted. -/
theorem C2_cex :
    (getBlacklist ⟨none, none, none⟩).2.listMode ≠ some "blacklist" := by decide

/-- Claim C2 (amended): when no blacklist is persisted, the first
`getBlacklist` call persists an empty pattern list only — `listMode` is
left untouched, not set to blacklist — and returns the empty list; a
subsequent call returns the same value with no further state change. -/
theorem C2_load_init (s : Storage) (h : s.blacklist = none) :
    getBlacklist s = ([], { s with blacklist := some [] }) ∧
    getBlacklist (getBlacklist s).2 = ((getBlacklist s).1, (getBlacklist s).2) ∧
    (getBlacklist s).2.listMode = s.listMode := by
  refine ⟨by simp [getBlacklist, h], ?_, by simp [getBlacklist, h]⟩
  simp [getBlacklist, h]

/-- Witness for C2_load_init at the fully absent storage. -/
theorem C2_load_init_witness :
    (Storage.mk none none none).blacklist = none ∧
    (getBlacklist ⟨none, none, none⟩ = ([], { Storage.mk none none none with blacklist := some [] }) ∧
      getBlacklist (getBlacklist ⟨none, none, none⟩).2 =
        ((getBlacklist ⟨none, none, none⟩).1, (getBlacklist ⟨none, none, none⟩).2) ∧
      (getBlacklist ⟨none, none, none⟩).2.listMode = (Storage.mk none none none).listMode) :=
  ⟨rfl, C2_load_init ⟨none, none, none⟩ rfl⟩

/-! ### Claim C3 -/

/-- Claim C3: when the persisted state carries no `listMode` value (as
after first-access initialization), the check of `storage.listMode`
is false, so the visit decision behaves as whitelist mode: the address
is purged exactly when no pattern matches it — with an empty pattern
list every visited address is purged (the `any` below is `false`). -/
theorem C3_absent_mode_purges_on_no_match (eng : RegexEngine) (url : String) (s : Storage)
    (hm : s.listMode = none)
    (hc : ∀ p ∈ patternsOf s, (eng.compile p).isSome) :
    (onPageVisited eng s url).result = .ok (!((patternsOf s).any (testPat eng url))) := by
  have hfst := getBlacklist_fst s
  have hsnd : (getBlacklist s).2.listMode = none := by
    cases hb : s.blacklist <;> simp [getBlacklist, hb, hm]
  have hfind : findMatch eng url (getBlacklist s).1 = .ok ((patternsOf s).any (testPat eng url)) := by
    rw [hfst]; exact findMatch_eq_any eng url (patternsOf s) hc
  simp [onPageVisited, hfind, hsnd]

/-- Witness for C3 at a store holding one non-matching pattern and no
listMode: the visit is purged. -/
theorem C3_witness :
    (Storage.mk (some ["zzz"]) none none).listMode = none ∧
    (∀ p ∈ patternsOf ⟨some ["zzz"], none, none⟩, (jsLikeEngine.compile p).isSome) ∧
    (onPageVisited jsLikeEngine ⟨some ["zzz"], none, none⟩ "x").result =
      .ok (!((patternsOf ⟨some ["zzz"], none, none⟩).any (testPat jsLikeEngine "x"))) :=
  ⟨rfl, by decide,
    C3_absent_mode_purges_on_no_match jsLikeEngine "x" ⟨some ["zzz"], none, none⟩ rfl (by decide)⟩

/-! ### Claim C4 -/

/-- Claim C4: for a state whose mode is explicitly blacklist or
whitelist and whose patterns all compile, the decision is `purge = found`
in blacklist mode and `purge = !found` in whitelist mode, where `found`
says some stored pattern matches the address under the engine's
partial-match test; with an empty pattern set `found` is `false`, so
blacklist mode never purges and whitelist mode always purges. -/
theorem C4_mode_polarity (eng : RegexEngine) (url : String) (s : Storage) (l : List String)
    (hbl : s.blacklist = some l)
    (hc : ∀ p ∈ l, (eng.compile p).isSome)
    (hm : s.listMode = some "blacklist" ∨ s.listMode = some "whitelist") :
    (onPageVisited eng s url).result =
      .ok (if s.listMode = some "blacklist" then l.any (testPat eng url)
           else !(l.any (testPat eng url))) := by
  have hget := getBlacklist_of_some s l hbl
  have hfind := findMatch_eq_any eng url l hc
  rcases hm with hm | hm <;>
    simp [onPageVisited, hget, hfind, hm]

/-- Witness for C4 in blacklist mode with a matching pattern: the visit
is purged. -/
theorem C4_mode_polarity_witness :
    (Storage.mk (some ["b"]) (some "blacklist") none).blacklist = some ["b"] ∧
    (∀ p ∈ ["b"], (jsLikeEngine.compile p).isSome) ∧
    (onPageVisited jsLikeEngine ⟨some ["b"], some "blacklist", none⟩ "abc").result =
      .ok (if (Storage.mk (some ["b"]) (some "blacklist") none).listMode = some "blacklist"
           then (["b"].any (testPat jsLikeEngine "abc"))
           else !(["b"].any (testPat jsLikeEngine "abc"))) :=
  ⟨rfl, by decide,
    C4_mode_polarity jsLikeEngine "abc" ⟨some ["b"], some "blacklist", none⟩ ["b"]
      rfl (by decide) (Or.inl rfl)⟩

/-! ### Claim C5 -/

/-- Claim C5 counterexample: `block` neither trims nor rejects the empty
string, and resolves with `undefined` rather than a boolean: adding `""`
to a store holding an empty list mutates the state (the claim says an
empty trimmed input leaves it unchanged and returns `false`). -/
theorem C5_cex :
    (block ⟨some [], none, none⟩ "").2 ≠ ⟨some [], none, none⟩ ∧
    (block ⟨some [], none, none⟩ "").1 ≠ JsValue.boolean false := by
  exact ⟨by decide, by decide⟩

/-- Claim C5 (amended): `block` appends its argument verbatim — no
trimming, no emptiness check — to the end of the sequence iff it is not
already present (case-sensitive exact comparison), persisting exactly
when it appends; in both cases it resolves with `undefined` rather than
a boolean. -/
theorem C5_add_verbatim (s : Storage) (l : List String) (r : String)
    (h : s.blacklist = some l) :
    block s r = (JsValue.undefined,
      if r ∈ l then s else { s with blacklist := some (l ++ [r]) }) := by
  have hget := getBlacklist_of_some s l h
  by_cases hm : r ∈ l <;> simp [block, hget, hm]

/-- Witness for C5 (amended): adding a fresh pattern appends it. -/
theorem C5_add_verbatim_witness :
    (Storage.mk (some ["a"]) none none).blacklist = some ["a"] ∧
    block ⟨some ["a"], none, none⟩ "b" =
      (JsValue.undefined,
        if "b" ∈ ["a"] then Storage.mk (some ["a"]) none none
        else { Storage.mk (some ["a"]) none none with blacklist := some (["a"] ++ ["b"]) }) :=
  ⟨rfl, C5_add_verbatim ⟨some ["a"], none, none⟩ ["a"] "b" rfl⟩

/-! ### Claim C6 -/

/-- Claim C6 counterexample: `HistoryBlock.changeListMode` does not
validate its argument: called with `"foo"` it persists `listMode: "foo"`
instead of leaving the state unchanged. -/
theorem C6_cex :
    changeListMode ⟨some ["a"], some "blacklist", none⟩ (some "foo") ≠
      ⟨some ["a"], some "blacklist", none⟩ := by decide

/-- Claim C6 (amended): `HistoryBlock.changeListMode` performs no
validation: any truthy argument — recognized or not — is persisted as
the new mode, preserving the pattern list; a falsy argument (absent or
empty) makes it re-write the currently stored mode, leaving the stored
state unchanged. The check against the two recognized values lives only
in the options-page caller, before the message is sent. -/
theorem C6_setMode_no_validation (s : Storage) (v : String) (hv : v ≠ "") :
    changeListMode s (some v) = { s with listMode := some v } ∧
    changeListMode s none = s ∧
    changeListMode s (some "") = s := by
  cases s
  simp [changeListMode, hv]

/-- Witness for C6 (amended): the unrecognized mode `"foo"` is stored. -/
theorem C6_setMode_no_validation_witness :
    ("foo" : String) ≠ "" ∧
    (changeListMode ⟨some ["a"], some "blacklist", none⟩ (some "foo") =
        { Storage.mk (some ["a"]) (some "blacklist") none with listMode := some "foo" } ∧
      changeListMode ⟨some ["a"], some "blacklist", none⟩ none =
        Storage.mk (some ["a"]) (some "blacklist") none ∧
      changeListMode ⟨some ["a"], some "blacklist", none⟩ (some "") =
        Storage.mk (some ["a"]) (some "blacklist") none) :=
  ⟨by decide, C6_setMode_no_validation ⟨some ["a"], some "blacklist", none⟩ "foo" (by decide)⟩

/-! ### Claim C7 -/

/-- Claim C7 counterexample: the visit loop has no try/catch, so an
invalid pattern is not "never-matching for that pattern only": with the
pattern list `["[", "b"]` and the address `"b"` (which the second
pattern matches), the `RegExp` constructor throws on `"["`, the
remaining pattern is never evaluated, no decision is produced, and the
exception propagates to the caller. -/
theorem C7_cex :
    (onPageVisited jsLikeEngine ⟨some ["[", "b"], some "blacklist", none⟩ "b").result =
      .error .regexError := by decide

/-- Claim C7 (amended): a pattern whose text is not a valid regular
expression aborts the decision: as soon as the evaluation loop reaches
it (every earlier pattern compiles and fails to match), the constructor
throws, the remaining patterns are not evaluated, no decision is
produced, and the exception propagates to the caller. -/
theorem C7_invalid_pattern_throws (eng : RegexEngine) (url : String) (s : Storage)
    (l1 : List String) (p : String) (l2 : List String)
    (hbl : s.blacklist = some (l1 ++ p :: l2))
    (h1 : ∀ q ∈ l1, (eng.compile q).isSome ∧ testPat eng url q = false)
    (hp : eng.compile p = none) :
    (onPageVisited eng s url).result = .error .regexError := by
  have hget := getBlacklist_of_some s _ hbl
  have hfind := findMatch_reaches_invalid eng url l1 p l2 h1 hp
  simp [onPageVisited, hget, hfind]

/-- Witness for C7 (amended) at the invalid pattern `"["` in first
position. -/
theorem C7_invalid_pattern_throws_witness :
    (Storage.mk (some ["[", "b"]) (some "blacklist") none).blacklist =
      some (([] : List String) ++ "[" :: ["b"]) ∧
    (∀ q ∈ ([] : List String),
      (jsLikeEngine.compile q).isSome ∧ testPat jsLikeEngine "b" q = false) ∧
    jsLikeEngine.compile "[" = none ∧
    (onPageVisited jsLikeEngine ⟨some ["[", "b"], some "blacklist", none⟩ "b").result =
      .error .regexError :=
  ⟨rfl, by simp, rfl,
    C7_invalid_pattern_throws jsLikeEngine "b" ⟨some ["[", "b"], some "blacklist", none⟩
      [] "[" ["b"] rfl (by simp) rfl⟩

/-! ### Claim C8 -/

/-- Claim C8 counterexample: `unblock` of a present pattern resolves
with `undefined`, not the boolean `true` the claim states (the method
body has no `return` statement). -/
theorem C8_cex :
    (unblock ⟨some ["a"], none, none⟩ "a").1 ≠ JsValue.boolean true := by decide

/-- Claim C8 (amended): when the pattern is present, `unblock` deletes
exactly the first occurrence (`splice` at `indexOf`) and persists; when
absent, the state is unchanged; in both cases the method resolves with
`undefined` rather than a boolean. -/
theorem C8_remove_first_occurrence (s : Storage) (l : List String) (r : String)
    (h : s.blacklist = some l) :
    unblock s r = (JsValue.undefined,
      if r ∈ l then { s with blacklist := some (l.erase r) } else s) := by
  have hget := getBlacklist_of_some s l h
  by_cases hm : r ∈ l <;>
    simp [unblock, hget, hm, List.eraseIdx_indexOf_eq_erase]

/-- Witness for C8 (amended): removing a present pattern erases its
first occurrence. -/
theorem C8_remove_first_occurrence_witness :
    (Storage.mk (some ["a", "b"]) none none).blacklist = some ["a", "b"] ∧
    unblock ⟨some ["a", "b"], none, none⟩ "a" =
      (JsValue.undefined,
        if "a" ∈ ["a", "b"]
        then { Storage.mk (some ["a", "b"]) none none with blacklist := some (["a", "b"].erase "a") }
        else Storage.mk (some ["a", "b"]) none none) :=
  ⟨rfl, C8_remove_first_occurrence ⟨some ["a", "b"], none, none⟩ ["a", "b"] "a" rfl⟩

/-! ### Claim C9 -/

/-- Claim C9: the visit decision mutates no state: for every engine,
address and storage snapshot that holds a pattern sequence (the state a
`BlacklistState` snapshot denotes), `onPageVisited` leaves every stored
field — `blacklist`, `listMode`, `matching` — exactly as it was, whether
the evaluation completes or throws. -/
theorem C9_decision_mutates_nothing (eng : RegexEngine) (url : String) (s : Storage)
    (l : List String) (h : s.blacklist = some l) :
    (onPageVisited eng s url).store = s := by
  have hget := getBlacklist_of_some s l h
  rcases hf : findMatch eng url l with e | found <;>
    simp [onPageVisited, hget, hf]

/-- Witness for C9 at a concrete snapshot. -/
theorem C9_decision_mutates_nothing_witness :
    (Storage.mk (some ["a"]) (some "whitelist") none).blacklist = some ["a"] ∧
    (onPageVisited jsLikeEngine ⟨some ["a"], some "whitelist", none⟩ "url").store =
      Storage.mk (some ["a"]) (some "whitelist") none :=
  ⟨rfl, C9_decision_mutates_nothing jsLikeEngine "url" ⟨some ["a"], some "whitelist", none⟩ ["a"] rfl⟩

/-! ### Claim C10 -/

/-- `block` preserves the no-duplicates invariant. -/
theorem block_nodup (s : Storage) (r : String) (h : (patternsOf s).Nodup) :
    (patternsOf (block s r).2).Nodup := by
  cases hb : s.blacklist with
  | none => simp [block, getBlacklist, hb, patternsOf]
  | some l =>
    have hl : l.Nodup := by simpa [patternsOf, hb] using h
    by_cases hm : r ∈ l
    · simpa [block, getBlacklist, hb, hm, patternsOf] using hl
    · simp [block, getBlacklist, hb, hm, patternsOf, List.nodup_append, hl]

/-- `unblock` preserves the no-duplicates invariant. -/
theorem unblock_nodup (s : Storage) (r : String) (h : (patternsOf s).Nodup) :
    (patternsOf (unblock s r).2).Nodup := by
  cases hb : s.blacklist with
  | none => simp [unblock, getBlacklist, hb, patternsOf]
  | some l =>
    have hl : l.Nodup := by simpa [patternsOf, hb] using h
    by_cases hm : r ∈ l
    · simpa [unblock, getBlacklist, hb, hm, patternsOf,
        List.eraseIdx_indexOf_eq_erase] using hl.erase r
    · simpa [unblock, getBlacklist, hb, hm, patternsOf] using hl

/-- `importBlacklist` preserves the no-duplicates invariant (whether it
completes, throws, or skips a falsy argument). -/
theorem importBlacklist_nodup (s : Storage) (raw : String) (h : (patternsOf s).Nodup) :
    (patternsOf (importBlacklist s raw).store).Nodup := by
  by_cases hr : raw = ""
  · simpa [importBlacklist, hr] using h
  · rcases hg : getBlacklist s with ⟨bl, s1⟩
    have hbl : bl.Nodup := by
      have hfst := getBlacklist_fst s
      rw [hg] at hfst
      have hbe : bl = patternsOf s := by simpa using hfst
      rw [hbe]; exact h
    have hs1 : (patternsOf s1).Nodup := by
      have hp := patternsOf_getBlacklist s
      rw [hg] at hp
      have hse : patternsOf s1 = bl := by simpa using hp
      rw [hse]; exact hbl
    rcases hit : importTokens HistoryBlock.hash bl (splitComma raw) with e | bl2
    · simpa [importBlacklist, hr, hg, hit] using hs1
    · have hb2 : bl2.Nodup := importTokens_nodup _ _ _ _ hbl hit
      simpa [importBlacklist, hr, hg, hit, patternsOf] using hb2

/-- `clearBlacklist` preserves the no-duplicates invariant. -/
theorem clearBlacklist_nodup (s : Storage) :
    (patternsOf (clearBlacklist s)).Nodup := by
  simp [clearBlacklist, getBlacklist, patternsOf]

/-- `changeListMode` does not touch the pattern sequence. -/
theorem changeListMode_patternsOf (s : Storage) (lm : Option String) :
    patternsOf (changeListMode s lm) = patternsOf s := by
  rcases lm with _ | v
  · simp [changeListMode, patternsOf]
  · by_cases hv : v = "" <;> simp [changeListMode, hv, patternsOf]

/-- Claim C10: pattern uniqueness is an invariant: starting from a state
whose pattern sequence has no duplicates, each store operation — add
(`block`), remove (`unblock`), import (`importBlacklist`), clear
(`clearBlacklist`) and mode switch (`changeListMode`) — yields a state
whose pattern sequence still has no duplicates. -/
theorem C10_nodup_invariant (s : Storage) (h : (patternsOf s).Nodup)
    (r u raw : String) (lm : Option String) :
    (patternsOf (block s r).2).Nodup ∧
    (patternsOf (unblock s u).2).Nodup ∧
    (patternsOf (importBlacklist s raw).store).Nodup ∧
    (patternsOf (clearBlacklist s)).Nodup ∧
    (patternsOf (changeListMode s lm)).Nodup :=
  ⟨block_nodup s r h, unblock_nodup s u h, importBlacklist_nodup s raw h,
    clearBlacklist_nodup s, (changeListMode_patternsOf s lm).symm ▸ h⟩

/-- Witness for C10 at a concrete duplicate-free store. -/
theorem C10_nodup_invariant_witness :
    (patternsOf ⟨some ["a"], some "blacklist", none⟩).Nodup ∧
    ((patternsOf (block ⟨some ["a"], some "blacklist", none⟩ "b").2).Nodup ∧
      (patternsOf (unblock ⟨some ["a"], some "blacklist", none⟩ "a").2).Nodup ∧
      (patternsOf (importBlacklist ⟨some ["a"], some "blacklist", none⟩ "x,y").store).Nodup ∧
      (patternsOf (clearBlacklist ⟨some ["a"], some "blacklist", none⟩)).Nodup ∧
      (patternsOf (changeListMode ⟨some ["a"], some "blacklist", none⟩ (some "whitelist"))).Nodup) :=
  ⟨by decide,
    C10_nodup_invariant ⟨some ["a"], some "blacklist", none⟩ (by decide) "b" "a" "x,y"
      (some "whitelist")⟩
